import Mathlib

/-!
Verification of the AgentCarRepair repository (`src/AgentRepair.py`) against its
natural-language specification.  The Python functions are shallowly embedded:
strings are `List Char` (one element per Unicode scalar value, matching Python's
per-codepoint string semantics), file/clock effects are passed explicitly, and
fallible code returns `Except`/`Option`.  Each definition mirrors the source
function of the same name.
-/

set_option maxRecDepth 20000

namespace AgentRepair

/-- Character strings, one `Char` per Unicode code point (as in Python). -/
abbrev Str := List Char

/-- Whitespace predicate used by Python `str.strip`/`\s` (ASCII subset:
space, tab, newline, carriage return, vertical tab, form feed). -/
def pyIsSpace (c : Char) : Bool :=
  c = ' ' || c = '\t' || c = '\n' || c = '\r' || c = Char.ofNat 11 || c = Char.ofNat 12

/-- Python `str.strip()`: drop whitespace from both ends. -/
def stripL (s : Str) : Str :=
  ((s.dropWhile pyIsSpace).reverse.dropWhile pyIsSpace).reverse

/-- Python `str.lower()` (ASCII letters). -/
def lowerL (s : Str) : Str := s.map Char.toLower

/-- Does `pat` occur at the start of `s` (case sensitive)? -/
def isPrefixL : Str → Str → Bool
  | [], _ => true
  | _ :: _, [] => false
  | p :: ps, c :: cs => p = c && isPrefixL ps cs

/-- Does `pat` occur at the start of `s`, compared case-insensitively? -/
def isPrefixCIL : Str → Str → Bool
  | [], _ => true
  | _ :: _, [] => false
  | p :: ps, c :: cs => p.toLower = c.toLower && isPrefixCIL ps cs

/-- Python `needle in hay` substring test. -/
def isSubL (pat : Str) : Str → Bool
  | [] => isPrefixL pat []
  | c :: cs => isPrefixL pat (c :: cs) || isSubL pat cs

/-- Index of the first case-insensitive occurrence of `pat` in `s`. -/
def findIdxCIL (pat : Str) : Str → Option Nat
  | [] => if isPrefixCIL pat [] then some 0 else none
  | c :: cs =>
    if isPrefixCIL pat (c :: cs) then some 0
    else (findIdxCIL pat cs).map (· + 1)

/-!  Bracketed-tag substitution.

`format_message_content` starts with three `re.sub` passes
(`[WARNING]…[/WARNING]`, `[TIP]…[/TIP]`, `[COST]…[/COST]`; non-greedy body,
`re.DOTALL | re.IGNORECASE`).  `subTagGo` performs leftmost, non-overlapping
replacement: the earliest case-insensitive open tag whose minimal non-empty
body is terminated by the earliest following close tag is replaced by
`pre ++ body ++ post`, and scanning resumes after the replacement.  If an open
tag has no close tag at least one character later, no further match exists
(later open tags search a subset of the same region), matching `re.sub`. -/

def subTagGo (o c pre post : Str) : Nat → Str → Str
  | 0, s => s
  | fuel + 1, s =>
    match findIdxCIL o s with
    | none => s
    | some i =>
      match findIdxCIL c ((s.drop (i + o.length)).drop 1) with
      | none => s
      | some j =>
        let rest := s.drop (i + o.length)
        s.take i ++ pre ++ rest.take (j + 1) ++ post ++
          subTagGo o c pre post fuel (rest.drop (j + 1 + c.length))

/-- One `re.sub(r'\[TAG\](.+?)\[/TAG\]', pre + r'\1' + post, s, DOTALL|IGNORECASE)`. -/
def subTag (o c pre post : Str) (s : Str) : Str :=
  subTagGo o c pre post s.length s

def wOpenT : Str := "[WARNING]".toList
def wCloseT : Str := "[/WARNING]".toList
def wPre : Str := "<div class=\"warning-box\">⚠️ <strong>Warning:</strong>".toList
def wPost : Str := "</div>".toList

def tOpenT : Str := "[TIP]".toList
def tCloseT : Str := "[/TIP]".toList
def tPre : Str := "<div class=\"tip-box\">💡 <strong>Pro Tip:</strong>".toList
def tPost : Str := "</div>".toList

def cOpenT : Str := "[COST]".toList
def cCloseT : Str := "[/COST]".toList
def cPre : Str := "<div class=\"cost-box\">💰 <strong>Cost Estimate:</strong>".toList
def cPost : Str := "</div>".toList

/-- The three tag-substitution passes, in source order (warning, tip, cost). -/
def applyTagSubs (s : Str) : Str :=
  subTag cOpenT cCloseT cPre cPost
    (subTag tOpenT tCloseT tPre tPost
      (subTag wOpenT wCloseT wPre wPost s))

/-- Python `text.split('\n')` (returns `[""]` on the empty string). -/
def splitNl : Str → List Str
  | [] => [[]]
  | c :: cs =>
    if c = '\n' then [] :: splitNl cs
    else
      match splitNl cs with
      | [] => [[c]]
      | h :: t => (c :: h) :: t

/-- U+FE0F VARIATION SELECTOR-16 (the second code point of `1️⃣`, `▶️`, …). -/
def vs16 : Char := Char.ofNat 0xFE0F

/-- U+20E3 COMBINING ENCLOSING KEYCAP (the third code point of `1️⃣`). -/
def keycap : Char := Char.ofNat 0x20E3

/-- Match `\s+(.+)` against the tail of a line: at least one whitespace char,
then a non-empty remainder.  On an all-whitespace tail the regex engine
backtracks so that `(.+)` captures the final whitespace character. -/
def wsPlusRest (tail : Str) : Option Str :=
  match tail with
  | [] => none
  | c :: cs =>
    if pyIsSpace c then
      let g2 := (c :: cs).dropWhile pyIsSpace
      if g2 = [] then some [cs.getLastD c] else some g2
    else none

/-- `re.match(r'^([1-9]️⃣)\s+(.+)', line)`: digit 1–9, U+FE0F, U+20E3,
whitespace, remainder.  Returns (group 1, group 2). -/
def matchEmojiStep (l : Str) : Option (Str × Str) :=
  match l with
  | [] => none
  | d :: rest1 =>
    if '1' ≤ d && d ≤ '9' then
      match rest1 with
      | v :: k :: rest =>
        if v = vs16 && k = keycap then
          (wsPlusRest rest).map (fun g2 => ([d, v, k], g2))
        else none
      | _ => none
    else none

/-- The code points of the Python character class
`[🎨🔧⚠️💡📍⏱️🔥💰✅🚗📖📌🎯📚🛠️🔍🔋]`.  Emoji written with a variation
selector contribute U+FE0F as a separate member of the class. -/
def headerChars : List Char :=
  ['🎨', '🔧', '⚠', vs16, '💡', '📍', '⏱', vs16, '🔥', '💰', '✅',
   '🚗', '📖', '📌', '🎯', '📚', '🛠', vs16, '🔍', '🔋']

/-- `re.match(r'^([🎨🔧⚠️…])\s+(.+)', line)`. -/
def matchHeader (l : Str) : Option (Char × Str) :=
  match l with
  | [] => none
  | c :: rest =>
    if headerChars.contains c then (wsPlusRest rest).map (fun g2 => (c, g2))
    else none

/-- The two code points of `▶️`. -/
def arrowL : Str := ['▶', vs16]

/-- Bullet pattern `^▶️\s+(.+)`. -/
def matchArrow (l : Str) : Option Str :=
  match l with
  | [] => none
  | a :: rest1 =>
    if a = '▶' then
      match rest1 with
      | v :: rest => if v = vs16 then wsPlusRest rest else none
      | _ => none
    else none

/-- Bullet pattern `^[-*•]\s+(.+)`. -/
def matchDash (l : Str) : Option Str :=
  match l with
  | [] => none
  | c :: rest =>
    if c = '-' || c = '*' || c = '•' then wsPlusRest rest else none

def isDigitC (c : Char) : Bool := '0' ≤ c && c ≤ '9'

def isAlphaC (c : Char) : Bool :=
  ('a' ≤ c && c ≤ 'z') || ('A' ≤ c && c ≤ 'Z')

/-- Bullet pattern `^\d+\.\s+(.+)`. -/
def matchNum (l : Str) : Option Str :=
  let ds := l.takeWhile isDigitC
  if ds = [] then none
  else
    match l.drop ds.length with
    | '.' :: rest => wsPlusRest rest
    | _ => none

/-- Bullet pattern `^[a-zA-Z]\.\s+(.+)`. -/
def matchLetter (l : Str) : Option Str :=
  match l with
  | [] => none
  | c :: rest1 =>
    if isAlphaC c then
      match rest1 with
      | '.' :: rest => wsPlusRest rest
      | _ => none
    else none

def isRomanC (c : Char) : Bool :=
  c = 'i' || c = 'v' || c = 'x' || c = 'I' || c = 'V' || c = 'X'

/-- Bullet pattern `^[ivx]+\.\s+(.+)` with `re.IGNORECASE`. -/
def matchRoman (l : Str) : Option Str :=
  let rs := l.takeWhile isRomanC
  if rs = [] then none
  else
    match l.drop rs.length with
    | '.' :: rest => wsPlusRest rest
    | _ => none

/-- The `bullet_patterns` priority list: first match wins. -/
def firstBullet (l : Str) : Option Str :=
  match matchArrow l with
  | some g => some g
  | none =>
    match matchDash l with
    | some g => some g
    | none =>
      match matchNum l with
      | some g => some g
      | none =>
        match matchLetter l with
        | some g => some g
        | none => matchRoman l

/-- List-item content normalisation: prefix `▶️ ` unless already present.
(The source's dedicated `▶️` branch is dead code — its
`pattern.startswith(r'^\▶️')` test compares against a backslash the pattern
does not contain — so every bullet takes this path.) -/
def decorate (content : Str) : Str :=
  if isPrefixL arrowL content then content else arrowL ++ ' ' :: content

def ulOpenL : Str := "<ul class=\"emoji-list\">".toList
def ulCloseL : Str := "</ul>".toList
def brTag : Str := "<br>".toList

def stepWrap (g1 g2 : Str) : Str :=
  "<div class=\"emoji-step\">".toList ++ g1 ++ ' ' :: g2 ++ "</div>".toList

def headerWrap (c : Char) (g2 : Str) : Str :=
  "<div class=\"section-header\">".toList ++ c :: ' ' :: g2 ++ "</div>".toList

def liWrap (content : Str) : Str :=
  "<li>".toList ++ content ++ "</li>".toList

def boldWrap (l : Str) : Str :=
  "<div class=\"bold-header\">".toList ++ l ++ "</div>".toList

def pWrap (l : Str) : Str := "<p>".toList ++ l ++ "</p>".toList

/-- `line.endswith(':')`. -/
def endsColon (l : Str) : Bool := l.getLast? = some ':'

/-- The per-line state machine of `format_message_content` (the `for line in
lines:` loop plus the final `if in_list` close).  Produces the
`formatted_lines` block list. -/
def processLines : Bool → List Str → List Str
  | inList, [] => if inList then [ulCloseL] else []
  | inList, l :: rest =>
    let line := stripL l
    if line = [] then
      (if inList then [ulCloseL, brTag] else [brTag]) ++ processLines false rest
    else
      match matchEmojiStep line with
      | some (g1, g2) =>
        (if inList then [ulCloseL] else []) ++ stepWrap g1 g2 :: processLines false rest
      | none =>
        match matchHeader line with
        | some (c, g2) =>
          (if inList then [ulCloseL] else []) ++ headerWrap c g2 :: processLines false rest
        | none =>
          match firstBullet line with
          | some content =>
            (if inList then [] else [ulOpenL]) ++
              liWrap (decorate content) :: processLines true rest
          | none =>
            (if inList then [ulCloseL] else []) ++
              (if endsColon line && line.length < 100 then boldWrap line
               else pWrap line) :: processLines false rest

/-- Count a maximal greedy run of `(<br>\s*)` repetitions and return the
remainder after the run. -/
def brRunGo : Nat → Str → Nat × Str
  | 0, s => (0, s)
  | f + 1, s =>
    if isPrefixL brTag s then
      let p := brRunGo f ((s.drop 4).dropWhile pyIsSpace)
      (p.1 + 1, p.2)
    else (0, s)

/-- `re.sub(r'(<br>\s*){2,}', '<br><br>', s)`: scan left to right; a greedy
run of two or more `<br>`-plus-whitespace repetitions collapses to
`<br><br>`, and scanning resumes after the match. -/
def collapseGo : Nat → Str → Str
  | 0, s => s
  | _ + 1, [] => []
  | f + 1, c :: cs =>
    let p := brRunGo (f + 1) (c :: cs)
    if 2 ≤ p.1 then brTag ++ brTag ++ collapseGo f p.2
    else c :: collapseGo f cs

def brCollapse (s : Str) : Str := collapseGo s.length s

/-- `re.sub(r'^<br>|<br>$', '', s)`: remove one leading and one trailing
`<br>`. -/
def dropBrEnds (s : Str) : Str :=
  let t := if isPrefixL brTag s then s.drop 4 else s
  if isPrefixL brTag.reverse t.reverse then (t.reverse.drop 4).reverse else t

/-- Shallow embedding of `format_message_content` (AgentRepair.py lines
219–360): empty guard, strip, the three tag substitutions, newline split,
the per-line state machine, join, `<br>` run collapse and end trimming. -/
def format_message_content (s : Str) : Str :=
  if s = [] then []
  else
    dropBrEnds (brCollapse
      (processLines false (splitNl (applyTagSubs (stripL s)))).flatten)

/-!  Text classifier: `is_parts_related_query` (lines 144–173). -/

/-- Lowercased code points of a `String` (Python `message.lower()`). -/
def lowerS (s : String) : Str := lowerL s.toList

def parts_keywords : List String :=
  ["need a new", "need to replace", "where to buy", "find parts",
   "replacement cost", "how much for", "part price", "buy a",
   "order a", "purchase", "find a used", "used parts",
   "junkyard", "scrapyard", "salvage", "oem parts",
   "aftermarket", "parts store", "auto parts", "where can i buy",
   "cost", "price of", "how much does", "where to find"]

def part_patterns_intent : List String :=
  ["alternator", "starter", "battery", "headlight", "taillight",
   "mirror", "bumper", "brake", "tire", "wheel", "engine",
   "transmission", "radiator", "compressor", "converter", "airbag"]

def cost_words : List String := ["cost", "price", "much", "buy", "find"]

/-- Shallow embedding of `is_parts_related_query`: raw substring containment
of any keyword, else a cost-word co-occurring with a part name. -/
def is_parts_related_query (m : String) : Bool :=
  let ml := lowerS m
  if parts_keywords.any (fun k => isSubL k.toList ml) then true
  else if cost_words.any (fun k => isSubL k.toList ml) then
    part_patterns_intent.any (fun p => isSubL p.toList ml)
  else false

/-!  Entity extraction: `extract_part_name_from_query` (lines 175–217). -/

/-- The fixed priority-ordered part table (`part_patterns` dict; Python dicts
iterate in insertion order). -/
def part_patterns_table : List (String × List String) :=
  [("alternator", ["alternator"]),
   ("starter", ["starter", "starter motor"]),
   ("battery", ["battery"]),
   ("headlight", ["headlight", "head light", "headlamp"]),
   ("taillight", ["taillight", "tail light", "rear light"]),
   ("mirror", ["mirror", "side mirror"]),
   ("bumper", ["bumper"]),
   ("hood", ["hood", "bonnet"]),
   ("door", ["door"]),
   ("wheel", ["wheel", "rim"]),
   ("tire", ["tire", "tyre"]),
   ("brake", ["brake", "brake pad", "brake rotor"]),
   ("engine", ["engine", "motor"]),
   ("transmission", ["transmission", "gearbox"]),
   ("radiator", ["radiator"]),
   ("ac compressor", ["ac compressor", "a/c compressor", "air conditioning compressor"]),
   ("catalytic converter", ["catalytic converter", "cat converter"]),
   ("airbag", ["airbag", "air bag"]),
   ("seat", ["seat"]),
   ("steering wheel", ["steering wheel"])]

/-- The table scan: first entry (in table order) one of whose patterns occurs
in the lowercased message. -/
def firstTableMatch (ml : Str) : Option String :=
  part_patterns_table.findSome?
    (fun e => if e.2.any (fun p => isSubL p.toList ml) then some e.1 else none)

def isWordC (c : Char) : Bool := isAlphaC c || isDigitC c || c = '_'

/-- `re.search(r'need a new (\w+)', ml)`: leftmost occurrence of the literal
followed by at least one word character; returns the captured word. -/
def needANewSearch : Str → Option Str
  | [] => none
  | c :: cs =>
    if isPrefixL "need a new ".toList (c :: cs) then
      let w := ((c :: cs).drop 11).takeWhile isWordC
      if w = [] then needANewSearch cs else some w
    else needANewSearch cs

/-- Shallow embedding of `extract_part_name_from_query`: table scan first,
then the `need a new (\w+)` fallback guarded by `'new ' in message_lower`. -/
def extract_part_name_from_query (m : String) : Option String :=
  let ml := lowerS m
  match firstTableMatch ml with
  | some p => some p
  | none =>
    if isSubL "new ".toList ml then
      match needANewSearch ml with
      | some w => some (String.mk w)
      | none => none
    else none

/-!  Result cache (lines 84–142).

The Python cache is a JSON file mapping key → `{timestamp, data}`.  The file
system and clock are made explicit: a `CacheFile` value stands for the state
of `parts_search_cache.json` (`corrupt` covers unreadable/malformed-JSON
contents, whose `json.load` exception `load_parts_cache` catches), the store
is an insertion-ordered key/entry list (a Python dict), and `now : Nat` is
the clock in seconds.  An entry's `ts` is `some t` when its `'timestamp'`
field is a well-formed ISO string denoting time `t` (ISO strings of the fixed
`datetime.isoformat` shape compare lexicographically exactly as their times
do) and `none` when the field is missing, in which case `.get('timestamp','')`
yields `''`, which sorts below every well-formed stamp and makes
`datetime.fromisoformat` raise.  `get_cached_parts_search` has no handler for
that exception, so it is modelled in `Except`. -/

structure CEntry (V : Type) where
  ts : Option Nat
  data : V
deriving DecidableEq

/-- A Python dict, as an insertion-ordered association list. -/
abbrev CStore (V : Type) := List (String × CEntry V)

/-- `CACHE_EXPIRY_HOURS = 1`, in seconds. -/
def CACHE_EXPIRY_SECONDS : Nat := 3600

/-- The per-put size cap (`keep only last 100`). -/
def CACHE_CAP : Nat := 100

inductive CacheFile (V : Type) where
  | absent
  | corrupt
  | stored (s : CStore V)

/-- `load_parts_cache`: missing file or unparseable contents yield `{}`
(the `except` branch logs and falls through to `return {}`). -/
def load_parts_cache : CacheFile V → CStore V
  | .absent => []
  | .corrupt => []
  | .stored s => s

/-- Dict lookup (`cache_data[k]` after `k in cache_data`). -/
def lookupKey (k : String) : CStore V → Option (CEntry V)
  | [] => none
  | (k', e) :: r => if k' = k then some e else lookupKey k r

/-- Dict deletion (`del cache_data[k]`). -/
def eraseKey (k : String) (s : CStore V) : CStore V :=
  s.filter (fun e => !(e.1 == k))

def hasKey (k : String) (s : CStore V) : Bool := s.any (fun e => e.1 == k)

/-- Dict assignment `cache_data[k] = v`: overwrite in place, else append. -/
def dictInsert (k : String) (v : CEntry V) (s : CStore V) : CStore V :=
  if hasKey k s then s.map (fun e => if e.1 == k then (k, v) else e)
  else s ++ [(k, v)]

/-- Sort key for eviction: the raw timestamp string; a missing stamp sorts as
`''`, below every well-formed stamp, so `none ↦ 0` and `some t ↦ t + 1`. -/
def tsKey : Option Nat → Nat
  | none => 0
  | some t => t + 1

/-- The eviction order: `sorted(…, key=timestamp, reverse=True)` puts larger
timestamps first. -/
def cacheGE (V : Type) (a b : String × CEntry V) : Prop :=
  tsKey b.2.ts ≤ tsKey a.2.ts

instance : DecidableRel (cacheGE V) := fun _ _ => Nat.decLe _ _

instance : IsTotal (String × CEntry V) (cacheGE V) :=
  ⟨fun a b => by unfold cacheGE; exact Nat.le_total _ _⟩

instance : IsTrans (String × CEntry V) (cacheGE V) :=
  ⟨fun _ _ _ h1 h2 => by unfold cacheGE at *; exact Nat.le_trans h2 h1⟩

/-- Shallow embedding of `cache_parts_search`: insert/overwrite under `k`
with the current timestamp; if the store then exceeds the cap, keep the
newest `CACHE_CAP` entries (stable sort descending by timestamp, truncate).
`List.insertionSort` inserts each element before the first entry it is
`cacheGE`-related to, which preserves the original order of equal timestamps
exactly as Python's stable `sorted` does.  Never raises. -/
def cache_parts_search (now : Nat) (store : CStore V) (k : String) (v : V) :
    CStore V :=
  let L := dictInsert k ⟨some now, v⟩ store
  if CACHE_CAP < L.length then (L.insertionSort (cacheGE V)).take CACHE_CAP
  else L

/-- Shallow embedding of `get_cached_parts_search`: miss returns `none`; a
hit parses the stored timestamp (`datetime.fromisoformat`, which raises —
`.error ()` — on a missing/malformed stamp, uncaught in the source), returns
the payload while `now < stored + TTL`, and otherwise deletes the entry,
persists, and returns `none`.  The returned store is the persisted state. -/
def get_cached_parts_search (now : Nat) (store : CStore V) (k : String) :
    Except Unit (Option V × CStore V) :=
  match lookupKey k store with
  | none => .ok (none, store)
  | some e =>
    match e.ts with
    | none => .error ()
    | some ct =>
      if now < ct + CACHE_EXPIRY_SECONDS then .ok (some e.data, store)
      else .ok (none, eraseKey k store)

/-!  Prompt builder: `create_car_repair_prompt` (lines 536–652) and
`is_volvo_related` (lines 426–443).  `get_volvo_context` performs database
and file I/O, so the context provider is abstracted as a function parameter
`ctx`; the builder consults it only on Volvo-related messages. -/

structure Turn where
  role : String
  content : String
deriving DecidableEq

/-- One used-parts record; absent keys make `part.get(…)` return the
fallback string. -/
structure PartRec where
  price : Option String
  condition : Option String
  mileage : Option String
  distance : Option String
  seller_name : Option String

def volvo_keywords : List String :=
  ["volvo", "xc60", "xc90", "xc40", "s60", "s90", "v60", "v90",
   "sensus", "pilot assist", "blis", "city safety", "swedish",
   "gothenburg", "scandinavian"]

/-- Shallow embedding of `is_volvo_related`. -/
def is_volvo_related (m : String) : Bool :=
  volvo_keywords.any (fun k => isSubL k.toList (lowerS m))

/-- The fixed `base_system_content` literal. -/
def base_system_content : String :=
  "You are an expert automotive mechanic and car repair assistant. Your role is to help users diagnose car problems, provide repair guidance, and offer automotive advice with engaging visual formatting.\n\nVISUAL FORMATTING REQUIREMENTS:\n🎨 Use emojis for visual appeal and clarity:\n   • 🔧 Tools and equipment\n   • ⚠️ Warnings and cautions \n   • 💡 Pro tips and insights\n   • 📍 Part locations and positions\n   • ⏱️ Time estimates\n   • 🔥 Temperature warnings\n   • 💰 Cost estimates\n   • ✅ Completion checkmarks\n   • 🚗 Vehicle-specific info\n   • 📖 Reference materials\n\n📝 Format instructions with numbered emojis: 1️⃣, 2️⃣, 3️⃣ instead of plain numbers\n📌 Use section headers with relevant emojis\n🎯 Create visually distinct warning and tip boxes using [WARNING] and [TIP] tags\n📚 Always include direct manual link: [View Complete XC60 Manual](https://www.volvocars.com/us/support/manuals)\n\nFORBIDDEN PHRASES - NEVER say:\n❌ \"Check the owner\x27s manual\"\n❌ \"Refer to your vehicle\x27s owner\x27s manual\" \n❌ \"Consult your manual\"\n❌ \"See your owner\x27s manual\"\n\nInstead, provide the specific information directly and include the manual link for additional details.\n\nGuidelines:\n- Always prioritize safety first with clear ⚠️ warnings\n- Provide step-by-step instructions with emoji numbering\n- Explain technical terms in simple language\n- Suggest when professional help is needed\n- Ask clarifying questions to better diagnose issues\n- Provide cost estimates with 💰 emoji\n- Cover all car makes and models\n- Include both DIY solutions and professional repair options\n- Make responses visually engaging and easy to scan\n\nWhen responding:\n1️⃣ Acknowledge the user\x27s problem with appropriate emoji\n2️⃣ Ask clarifying questions if needed\n3️⃣ Provide possible diagnoses\n4️⃣ Suggest troubleshooting steps with clear formatting\n5️⃣ Recommend next actions (DIY or professional)\n6️⃣ Include safety warnings with ⚠️ symbols\n7️⃣ Add manual reference link for comprehensive information"

/-- The block appended for a non-empty Volvo context. -/
def volvoBlock (vc : String) : String :=
  "\n\nVEHICLE-SPECIFIC INFORMATION AVAILABLE:\n" ++ vc ++
  "\n\nUse this information to provide accurate, model-specific guidance for this Volvo XC60. \nReference the owner\x27s manual information when relevant and emphasize Volvo-specific \nprocedures, specifications, and known issues."

/-- One listed part: `f\"{i+1}. {price} ({condition}) - {mileage} - {distance}\n   Seller: {seller}\n\"`. -/
def partLine (i : Nat) (p : PartRec) : String :=
  toString (i + 1) ++ ". " ++ p.price.getD "Price unavailable" ++ " (" ++
    p.condition.getD "Condition unknown" ++ ") - " ++
    p.mileage.getD "Mileage unknown" ++ " - " ++
    p.distance.getD "Location unknown" ++ "\n   Seller: " ++
    p.seller_name.getD "Seller info unavailable" ++ "\n"

/-- The block appended when `parts_data` is non-empty: header, the first five
records, and the closing guidance. -/
def partsBlock (parts : List PartRec) : String :=
  "\n\nUSED PARTS AVAILABLE:\nI found " ++ toString parts.length ++
    " used parts available for your 2021 Volvo XC60:\n\n" ++
    String.join ((parts.take 5).enum.map (fun ip => partLine ip.1 ip.2)) ++
    "\nWhen discussing parts replacement, mention these available used parts with their prices and locations. \nEmphasize cost savings compared to new parts while noting the importance of part condition and seller reputation.\nProvide both DIY installation guidance and professional installation recommendations."

/-- The system turn content: base instructions, plus the Volvo context block
when the message is Volvo-related and the provider returns non-empty context,
plus the parts listing when parts were supplied. -/
def systemContent (ctx : String → String) (m : String)
    (parts : Option (List PartRec)) : String :=
  let b := base_system_content
  let b := if is_volvo_related m then
      (if ctx m = "" then b else b ++ volvoBlock (ctx m))
    else b
  match parts with
  | some ps => if ps.length = 0 then b else b ++ partsBlock ps
  | none => b

/-- Shallow embedding of `create_car_repair_prompt`: one system turn, the
history verbatim (`messages.extend`), then the new user turn.  A `none`
history in the source behaves as `[]`. -/
def create_car_repair_prompt (ctx : String → String) (user_message : String)
    (conversation_history : List Turn) (parts_data : Option (List PartRec)) :
    List Turn :=
  ⟨"system", systemContent ctx user_message parts_data⟩ ::
    (conversation_history ++ [⟨"user", user_message⟩])

/-!  Theorems. -/

/-- C1: the formatter is a total function (it is a Lean `def`, so it returns
on every input without raising), and every empty or whitespace-only input
yields the empty output. -/
theorem format_whitespace_only_empty (s : Str) (h : ∀ c ∈ s, pyIsSpace c) :
    format_message_content s = [] := by
  by_cases hs : s = []
  · subst hs; rfl
  · have hdrop : s.dropWhile pyIsSpace = [] := List.dropWhile_eq_nil_iff.mpr h
    have hstrip : stripL s = [] := by
      unfold stripL
      rw [hdrop]
      rfl
    unfold format_message_content
    rw [if_neg hs, hstrip]
    rfl

/-- Witness for C1 at the whitespace-only input `"  \t "`. -/
theorem format_whitespace_only_empty_witness :
    format_message_content "  \t ".toList = [] :=
  format_whitespace_only_empty _ (by decide)

/-- C10: keyword matching is raw substring containment — any message whose
lowercased text contains `"cost"`, even inside an unrelated word, is
classified as parts-related. -/
theorem is_parts_related_of_cost_substring (m : String)
    (h : isSubL "cost".toList (lowerS m) = true) :
    is_parts_related_query m = true := by
  have hany : parts_keywords.any (fun k => isSubL k.toList (lowerS m)) = true := by
    rw [List.any_eq_true]
    exact ⟨"cost", by decide, h⟩
  unfold is_parts_related_query
  simp only [hany, if_true]

/-- Witness for C10: `"cost"` occurs inside `"accosted"`. -/
theorem is_parts_related_of_cost_substring_witness :
    is_parts_related_query "He accosted me yesterday" = true :=
  is_parts_related_of_cost_substring _ (by decide)

/-- C5 counterexample: on `"I need a new widget"` the parts classifier fires
and the extractor returns `"widget"`, a value outside the fixed part table
(via the `need a new (\w+)` fallback), refuting "it never returns a value
outside the fixed table". -/
theorem extract_escapes_table_cex :
    is_parts_related_query "I need a new widget" = true ∧
    extract_part_name_from_query "I need a new widget" = some "widget" ∧
    (part_patterns_table.map Prod.fst).contains "widget" = false := by
  refine ⟨by decide, by decide, by decide⟩

/-- C5 as amended: the extractor returns the first table entry (in table
order, not input order) one of whose patterns occurs in the lowercased
query; only when no table pattern occurs does it fall back to the word
captured by `need a new (\w+)` — a word that may lie outside the table — and
otherwise it returns none.  Conjunct 3 exhibits the table-order tie-break:
`"seat"` appears first in the input, but `"engine"` precedes it in the
table. -/
theorem extract_part_name_characterization :
    (∀ (m : String) (p : String), firstTableMatch (lowerS m) = some p →
      extract_part_name_from_query m = some p) ∧
    (∀ (m : String) (p : String), extract_part_name_from_query m = some p →
      p ∈ part_patterns_table.map Prod.fst ∨
        (isSubL "new ".toList (lowerS m) = true ∧
          (needANewSearch (lowerS m)).map String.mk = some p)) ∧
    extract_part_name_from_query "the seat is stuck against the engine" = some "engine" := by
  refine ⟨?_, ?_, by decide⟩
  · intro m p h
    simp only [extract_part_name_from_query]
    rw [h]
  · intro m p h
    simp only [extract_part_name_from_query] at h
    cases htm : firstTableMatch (lowerS m) with
    | some q =>
      rw [htm] at h
      left
      obtain ⟨e, he, hfe⟩ := List.exists_of_findSome?_eq_some htm
      have : e.1 = q := by
        by_cases hc : (e.2.any fun pat => isSubL pat.toList (lowerS m)) = true
        · rw [if_pos hc] at hfe
          injection hfe
        · rw [if_neg hc] at hfe
          cases hfe
      cases h
      rw [← this]
      exact List.mem_map_of_mem Prod.fst he
    | none =>
      rw [htm] at h
      by_cases hnew : isSubL "new ".toList (lowerS m) = true
      · rw [if_pos hnew] at h
        cases hna : needANewSearch (lowerS m) with
        | some w =>
          right
          refine ⟨hnew, ?_⟩
          rw [hna] at h
          simpa using h
        | none => rw [hna] at h; cases h
      · rw [if_neg hnew] at h; cases h

/-- Witness for C5's amended theorem: the table branch applied at a concrete
query. -/
theorem extract_part_name_characterization_witness :
    extract_part_name_from_query "brake pads please" = some "brake" :=
  extract_part_name_characterization.1 "brake pads please" "brake" (by decide)

/-- C8 counterexample: a cache entry whose timestamp field is missing (or
malformed) makes `get_cached_parts_search` raise (`datetime.fromisoformat`
has no handler there), refuting "get and put never raise on corrupt
entries". -/
theorem get_cached_raises_on_bad_timestamp_cex :
    get_cached_parts_search 0 [("k", (⟨none, 0⟩ : CEntry Nat))] "k"
      = .error () := rfl

/-- A pair found by `lookupKey` is a member of the store, under the searched
key. -/
theorem lookupKey_mem {V : Type} {k : String} {s : CStore V} {e : CEntry V}
    (h : lookupKey k s = some e) : (k, e) ∈ s := by
  induction s with
  | nil => cases h
  | cons x r ih =>
    unfold lookupKey at h
    by_cases hk : x.1 = k
    · rw [if_pos hk] at h
      cases h
      rw [← hk, Prod.mk.eta]
      exact List.mem_cons_self _ _
    · rw [if_neg hk] at h
      exact List.mem_cons_of_mem _ (ih h)

/-- C8 as amended: unreadable or malformed cache-file contents load as the
empty cache (never raising), and `get_cached_parts_search` returns normally
on every store whose entries all carry well-formed timestamps; only an entry
with a missing/malformed timestamp makes it raise
(`get_cached_raises_on_bad_timestamp_cex`).  `cache_parts_search` is total by
construction and never raises. -/
theorem cache_error_containment :
    (∀ (V : Type), load_parts_cache (V := V) .corrupt = [] ∧
      load_parts_cache (V := V) .absent = []) ∧
    (∀ (V : Type) (now : Nat) (store : CStore V) (k : String),
      (∀ e ∈ store, e.2.ts ≠ none) →
      ∃ r, get_cached_parts_search now store k = .ok r) := by
  refine ⟨fun V => ⟨rfl, rfl⟩, ?_⟩
  intro V now store k h
  unfold get_cached_parts_search
  cases hl : lookupKey k store with
  | none => exact ⟨(none, store), rfl⟩
  | some e =>
    cases hts : e.ts with
    | none => exact absurd hts (h (k, e) (lookupKey_mem hl))
    | some ct =>
      by_cases hfresh : now < ct + CACHE_EXPIRY_SECONDS
      · exact ⟨(some e.data, store), by simp [hts, hfresh]⟩
      · exact ⟨(none, eraseKey k store), by simp [hts, hfresh]⟩

/-- Witness for C8's amended theorem at a concrete well-formed store. -/
theorem cache_error_containment_witness :
    ∃ r, get_cached_parts_search 10 [("a", (⟨some 5, 3⟩ : CEntry Nat))] "a" = .ok r :=
  cache_error_containment.2 Nat 10 _ "a" (by decide)

/-- C9: the prompt builder emits exactly a system turn followed by the user
turn on `("fix my brakes", [], None)` — with non-empty system content — and
for every history list the history turns sit between the system turn and the
final user turn, in order and unmodified. -/
theorem create_prompt_structure :
    (∀ ctx : String → String,
      create_car_repair_prompt ctx "fix my brakes" [] none
        = [⟨"system", base_system_content⟩, ⟨"user", "fix my brakes"⟩] ∧
      base_system_content ≠ "") ∧
    (∀ (ctx : String → String) (m : String) (hist : List Turn)
        (parts : Option (List PartRec)),
      ∃ sysc, create_car_repair_prompt ctx m hist parts
        = ⟨"system", sysc⟩ :: (hist ++ [⟨"user", m⟩])) := by
  refine ⟨fun ctx => ⟨rfl, by decide⟩, fun ctx m hist parts => ⟨_, rfl⟩⟩

/-- Looking up a key just written by dict-style in-place update succeeds. -/
theorem lookup_map_update (k : String) (e : CEntry V) :
    ∀ s : CStore V, hasKey k s = true →
      lookupKey k (s.map fun x => if x.1 == k then (k, e) else x) = some e := by
  intro s
  induction s with
  | nil => intro h; cases h
  | cons x r ih =>
    intro h
    by_cases hx : (x.1 == k) = true
    · simp only [List.map_cons, hx, if_true]
      unfold lookupKey
      simp
    · have hx' : (x.1 == k) = false := by simpa using hx
      have h2 : ((x.1 == k) || hasKey k r) = true := h
      rw [hx', Bool.false_or] at h2
      simp only [List.map_cons, hx, if_false, Bool.false_eq_true]
      unfold lookupKey
      rw [if_neg (by simpa using hx)]
      exact ih h2

/-- Looking up a key just appended to a store that lacked it succeeds. -/
theorem lookup_append_self (k : String) (e : CEntry V) :
    ∀ s : CStore V, hasKey k s = false → lookupKey k (s ++ [(k, e)]) = some e := by
  intro s
  induction s with
  | nil =>
    intro _
    unfold lookupKey
    simp
  | cons x r ih =>
    intro h
    have h2 : ((x.1 == k) || hasKey k r) = false := h
    have hx : (x.1 == k) = false := by
      cases Bool.or_eq_false_iff.mp h2 with
      | intro a b => exact a
    have hr : hasKey k r = false := by
      cases Bool.or_eq_false_iff.mp h2 with
      | intro a b => exact b
    rw [List.cons_append]
    unfold lookupKey
    rw [if_neg (by simpa using hx)]
    exact ih hr

/-- `d[k] = v` followed by `d[k]` returns `v`. -/
theorem lookup_dictInsert (k : String) (e : CEntry V) (s : CStore V) :
    lookupKey k (dictInsert k e s) = some e := by
  unfold dictInsert
  by_cases h : hasKey k s = true
  · rw [if_pos h]; exact lookup_map_update k e s h
  · rw [if_neg h]
    exact lookup_append_self k e s (by simpa using h)

/-- Dict insertion grows the store by at most one entry. -/
theorem length_dictInsert (k : String) (e : CEntry V) (s : CStore V) :
    (dictInsert k e s).length ≤ s.length + 1 := by
  unfold dictInsert
  by_cases h : hasKey k s = true
  · rw [if_pos h, List.length_map]; omega
  · rw [if_neg h, List.length_append]; simp

/-- Every member of the store after dict insertion is the new pair or an old
member. -/
theorem mem_dictInsert {y : String × CEntry V} {k : String} {e : CEntry V}
    {s : CStore V} (h : y ∈ dictInsert k e s) : y = (k, e) ∨ y ∈ s := by
  unfold dictInsert at h
  by_cases hk : hasKey k s = true
  · rw [if_pos hk] at h
    obtain ⟨x, hx, hfx⟩ := List.mem_map.mp h
    by_cases hx1 : (x.1 == k) = true
    · rw [if_pos hx1] at hfx; exact Or.inl hfx.symm
    · rw [if_neg hx1] at hfx; exact Or.inr (hfx ▸ hx)
  · rw [if_neg hk] at h
    rcases List.mem_append.mp h with h | h
    · exact Or.inr h
    · exact Or.inl (List.mem_singleton.mp h)

/-- After `del d[k]`, `k` is absent. -/
theorem lookup_eraseKey (k : String) (s : CStore V) :
    lookupKey k (eraseKey k s) = none := by
  induction s with
  | nil => rfl
  | cons x r ih =>
    unfold eraseKey at ih ⊢
    by_cases hx : (x.1 == k) = true
    · simpa [List.filter_cons, hx] using ih
    · simp only [List.filter_cons, hx, Bool.not_false, Bool.false_eq_true,
        if_false, if_true]
      unfold lookupKey
      rw [if_neg (by simpa using hx)]
      exact ih

/-- In a `cacheGE`-sorted list, an element strictly newer than every other
element is at the head. -/
theorem sorted_head_of_strict_max {l : List (String × CEntry V)}
    (hs : List.Sorted (cacheGE V) l) {p : String × CEntry V} (hp : p ∈ l)
    (hmax : ∀ y ∈ l, y ≠ p → tsKey y.2.ts < tsKey p.2.ts) :
    ∃ t, l = p :: t := by
  cases l with
  | nil => cases hp
  | cons a t =>
    by_cases hap : a = p
    · exact ⟨t, by rw [hap]⟩
    · exfalso
      have hpt : p ∈ t := by
        rcases List.mem_cons.mp hp with h | h
        · exact absurd h.symm hap
        · exact h
      have h1 : cacheGE V a p := (List.sorted_cons.mp hs).1 p hpt
      have h2 : tsKey a.2.ts < tsKey p.2.ts := hmax a (List.mem_cons_self _ _) hap
      unfold cacheGE at h1
      omega

/-- A fresh put is found by lookup, on any store that respects the put-time
invariant (no stored timestamp in the future): even when
the insertion overflows the cap, eviction retains the strictly newest
entry. -/
theorem lookup_put (now : Nat) (store : CStore V) (k : String) (v : V)
    (hts : ∀ e ∈ store, tsKey e.2.ts ≤ now) :
    lookupKey k (cache_parts_search now store k v) = some ⟨some now, v⟩ := by
  unfold cache_parts_search
  by_cases hc : CACHE_CAP < (dictInsert k ⟨some now, v⟩ store).length
  · rw [if_pos hc]
    have hkL : ((k, ⟨some now, v⟩) : String × CEntry V)
        ∈ dictInsert k ⟨some now, v⟩ store :=
      lookupKey_mem (lookup_dictInsert k _ store)
    have hmax : ∀ y ∈ dictInsert k ⟨some now, v⟩ store,
        y ≠ ((k, ⟨some now, v⟩) : String × CEntry V) →
        tsKey y.2.ts < tsKey (⟨some now, v⟩ : CEntry V).ts := by
      intro y hy hne
      rcases mem_dictInsert hy with h | h
      · exact absurd h hne
      · have := hts y h
        simp only [tsKey] at *
        omega
    have hsorted : List.Sorted (cacheGE V)
        ((dictInsert k ⟨some now, v⟩ store).insertionSort (cacheGE V)) :=
      List.sorted_insertionSort (cacheGE V) _
    have hmem : ((k, ⟨some now, v⟩) : String × CEntry V)
        ∈ (dictInsert k ⟨some now, v⟩ store).insertionSort (cacheGE V) :=
      (List.mem_insertionSort _).mpr hkL
    obtain ⟨t, ht⟩ := sorted_head_of_strict_max hsorted hmem
      (fun y hy => hmax y ((List.mem_insertionSort _).mp hy))
    rw [ht, show CACHE_CAP = 99 + 1 from rfl, List.take_succ_cons]
    unfold lookupKey
    simp
  · rw [if_neg hc]
    exact lookup_dictInsert k _ store

/-- C6: cache round-trip with expiry.  On any store none of whose entries is
timestamped in the future (true of every state the cache functions themselves
produce under a monotone clock), a put followed immediately by a get returns the stored
payload, and a get after the TTL has elapsed returns none and persists a
store from which the key is absent. -/
theorem cache_roundtrip_expiry (V : Type) (now later : Nat) (store : CStore V)
    (k : String) (v : V)
    (hts : ∀ e ∈ store, tsKey e.2.ts ≤ now)
    (hlater : now + CACHE_EXPIRY_SECONDS ≤ later) :
    get_cached_parts_search now (cache_parts_search now store k v) k
      = .ok (some v, cache_parts_search now store k v) ∧
    ∃ s2, get_cached_parts_search later (cache_parts_search now store k v) k
        = .ok (none, s2) ∧ lookupKey k s2 = none := by
  have hl := lookup_put now store k v hts
  have hfresh : now < now + CACHE_EXPIRY_SECONDS := by
    unfold CACHE_EXPIRY_SECONDS; omega
  have hstale : ¬ later < now + CACHE_EXPIRY_SECONDS := by omega
  refine ⟨?_, eraseKey k (cache_parts_search now store k v), ?_, ?_⟩
  · unfold get_cached_parts_search
    rw [hl]
    simp [hfresh]
  · unfold get_cached_parts_search
    rw [hl]
    simp [hstale]
  · exact lookup_eraseKey k _

/-- Witness for C6 on the empty store. -/
theorem cache_roundtrip_expiry_witness :
    get_cached_parts_search 0 (cache_parts_search 0 ([] : CStore Nat) "k" 42) "k"
      = .ok (some 42, cache_parts_search 0 ([] : CStore Nat) "k" 42) ∧
    ∃ s2, get_cached_parts_search 3600 (cache_parts_search 0 ([] : CStore Nat) "k" 42) "k"
        = .ok (none, s2) ∧ lookupKey "k" s2 = none :=
  cache_roundtrip_expiry Nat 0 3600 [] "k" 42 (by simp) (by decide)

/-- C7: after any put the store holds at most the cap of entries; the
resulting size is exactly `min (inserted size) cap`; and when eviction
fires, every retained entry is at least as new (by timestamp sort key) as
every dropped entry — the cap newest survive, the oldest are dropped. -/
theorem cache_eviction_cap (V : Type) (now : Nat) (store : CStore V)
    (k : String) (v : V) :
    (cache_parts_search now store k v).length ≤ CACHE_CAP ∧
    (cache_parts_search now store k v).length
      = min (dictInsert k ⟨some now, v⟩ store).length CACHE_CAP ∧
    ∀ e1 ∈ cache_parts_search now store k v,
      ∀ e2 ∈ dictInsert k ⟨some now, v⟩ store,
        e2 ∉ cache_parts_search now store k v →
          tsKey e2.2.ts ≤ tsKey e1.2.ts := by
  unfold cache_parts_search
  by_cases hc : CACHE_CAP < (dictInsert k ⟨some now, v⟩ store).length
  · simp only [if_pos hc]
    have hlenS : ((dictInsert k ⟨some now, v⟩ store).insertionSort
        (cacheGE V)).length = (dictInsert k ⟨some now, v⟩ store).length :=
      List.length_insertionSort _ _
    refine ⟨?_, ?_, ?_⟩
    · rw [List.length_take]
      omega
    · rw [List.length_take, hlenS]
      omega
    · intro e1 h1 e2 h2 hnot
      have h2S : e2 ∈ (dictInsert k ⟨some now, v⟩ store).insertionSort
          (cacheGE V) := (List.mem_insertionSort _).mpr h2
      have hsorted : List.Pairwise (cacheGE V)
          ((dictInsert k ⟨some now, v⟩ store).insertionSort (cacheGE V)) :=
        List.sorted_insertionSort (cacheGE V) _
      rw [← List.take_append_drop CACHE_CAP
        ((dictInsert k ⟨some now, v⟩ store).insertionSort (cacheGE V))]
        at h2S hsorted
      rcases List.mem_append.mp h2S with h | h
      · exact absurd h hnot
      · exact (List.pairwise_append.mp hsorted).2.2 e1 h1 e2 h
  · simp only [if_neg hc]
    refine ⟨by omega, (Nat.min_eq_left (by omega)).symm, ?_⟩
    intro e1 _ e2 h2 hnot
    exact absurd h2 hnot

/-- A store of 101 distinct keys with strictly descending timestamps, used to
exercise eviction concretely. -/
def bigStore : CStore Nat :=
  (List.range 101).map (fun i => (toString i, ⟨some (200 - i), i⟩))

/-- Witness for C7: inserting a 102nd entry into `bigStore` evicts the two
oldest entries; the dropped entry with timestamp 100 is no newer than the
retained fresh entry. -/
theorem cache_eviction_cap_witness :
    tsKey (some 100) ≤ tsKey (some 1000) :=
  (cache_eviction_cap Nat 1000 bigStore "k" 7).2.2
    ("k", ⟨some 1000, 7⟩) (by decide)
    ("100", ⟨some 100, 100⟩) (by decide) (by decide)

/-!  C2: structural balance.  The list markers the line machine emits as
block elements are classified by `ulTok`; `pairedToks` recognises the
language `(open close)*` (lists never nest and every opened list closes), and
`pairedIn` its in-list variant (a pending close, then `(open close)*`). -/

/-- Classify an emitted block element as a list-open/list-close marker. -/
def ulTok (x : Str) : Option Bool :=
  if x = ulOpenL then some true
  else if x = ulCloseL then some false
  else none

/-- The token sequence is a concatenation of (open, close) pairs. -/
def pairedToks : List Bool → Bool
  | [] => true
  | true :: false :: r => pairedToks r
  | _ => false

/-- From inside a list: one pending close, then (open, close) pairs. -/
def pairedIn : List Bool → Bool
  | false :: r => pairedToks r
  | _ => false

theorem ulTok_br : ulTok brTag = none := rfl

theorem ulTok_open : ulTok ulOpenL = some true := rfl

theorem ulTok_close : ulTok ulCloseL = some false := rfl

theorem ulTok_step (g1 g2 : Str) : ulTok (stepWrap g1 g2) = none := rfl

theorem ulTok_headerWrap (c : Char) (g2 : Str) : ulTok (headerWrap c g2) = none := rfl

theorem ulTok_li (x : Str) : ulTok (liWrap x) = none := rfl

theorem ulTok_bold (x : Str) : ulTok (boldWrap x) = none := rfl

theorem ulTok_p (x : Str) : ulTok (pWrap x) = none := rfl

theorem pairedToks_of_pairedIn {T : List Bool} (h : pairedIn T = true) :
    pairedToks (true :: T) = true := by
  cases T with
  | nil => cases h
  | cons b r =>
    cases b
    · exact h
    · cases h

/-- Invariant of the line machine: started outside a list it emits fully
paired list markers; started inside a list it emits one pending close and
then fully paired markers. -/
theorem processLines_balanced : ∀ lines : List Str,
    pairedToks ((processLines false lines).filterMap ulTok) = true ∧
    pairedIn ((processLines true lines).filterMap ulTok) = true := by
  intro lines
  induction lines with
  | nil => exact ⟨rfl, rfl⟩
  | cons l rest ih =>
    obtain ⟨ih0, ih1⟩ := ih
    by_cases he : stripL l = []
    · constructor
      · simp only [processLines, he, if_pos, if_neg, Bool.false_eq_true,
          List.singleton_append, List.filterMap_cons, ulTok_br]
        simpa using ih0
      · simp only [processLines, he, if_pos, List.cons_append,
          List.singleton_append, List.filterMap_cons, ulTok_br, ulTok_close]
        simpa [pairedIn] using ih0
    · cases hm1 : matchEmojiStep (stripL l) with
      | some pr =>
        obtain ⟨g1, g2⟩ := pr
        constructor
        · simp only [processLines, he, if_neg, hm1, List.nil_append,
            List.filterMap_cons, ulTok_step]
          simpa [he] using ih0
        · simp only [processLines, he, if_neg, hm1, List.singleton_append,
            List.filterMap_cons, ulTok_step, ulTok_close]
          simpa [he, pairedIn] using ih0
      | none =>
        cases hm2 : matchHeader (stripL l) with
        | some pr =>
          obtain ⟨c, g2⟩ := pr
          constructor
          · simp only [processLines, he, if_neg, hm1, hm2, List.nil_append,
              List.filterMap_cons, ulTok_headerWrap]
            simpa [he] using ih0
          · simp only [processLines, he, if_neg, hm1, hm2,
              List.singleton_append, List.filterMap_cons, ulTok_headerWrap,
              ulTok_close]
            simpa [he, pairedIn] using ih0
        | none =>
          cases hm3 : firstBullet (stripL l) with
          | some content =>
            constructor
            · simp only [processLines, he, if_neg, hm1, hm2, hm3,
                List.singleton_append, List.filterMap_cons, ulTok_open,
                ulTok_li]
              exact pairedToks_of_pairedIn ih1
            · simp only [processLines, he, if_neg, hm1, hm2, hm3,
                List.nil_append, List.filterMap_cons, ulTok_li]
              simpa [he] using ih1
          | none =>
            constructor
            · simp only [processLines, he, if_neg, hm1, hm2, hm3,
                List.nil_append, List.filterMap_cons]
              by_cases hb : (endsColon (stripL l) && decide ((stripL l).length < 100)) = true
              · simp only [hb, if_pos, List.filterMap_cons, ulTok_bold]
                simpa [he] using ih0
              · simp only [hb, if_neg, Bool.false_eq_true, List.filterMap_cons,
                  ulTok_p]
                simpa [he] using ih0
            · simp only [processLines, he, if_neg, hm1, hm2, hm3,
                List.singleton_append, List.filterMap_cons, ulTok_close]
              by_cases hb : (endsColon (stripL l) && decide ((stripL l).length < 100)) = true
              · simp only [hb, if_pos, List.filterMap_cons, ulTok_bold]
                simpa [he, pairedIn] using ih0
              · simp only [hb, if_neg, Bool.false_eq_true, List.filterMap_cons,
                  ulTok_p]
                simpa [he, pairedIn] using ih0

/-- `x` occurs contiguously inside `s`. -/
def IsPart (x s : Str) : Prop := ∃ a b, s = a ++ x ++ b

theorem IsPart_self (s : Str) : IsPart s s := ⟨[], [], by simp⟩

theorem IsPart_take {x : Str} (s : Str) (n : Nat) (h : IsPart x (s.take n)) :
    IsPart x s := by
  obtain ⟨a, b, hab⟩ := h
  exact ⟨a, b ++ s.drop n, by
    conv_lhs => rw [← List.take_append_drop n s]
    rw [hab]
    simp⟩

theorem IsPart_drop {x : Str} (s : Str) (n : Nat) (h : IsPart x (s.drop n)) :
    IsPart x s := by
  obtain ⟨a, b, hab⟩ := h
  exact ⟨s.take n ++ a, b, by
    conv_lhs => rw [← List.take_append_drop n s]
    rw [hab]
    simp⟩

/-- Render a list of (source chunk, tag body) pairs followed by a trailing
source chunk: every inserted `pre` (callout-open div) is immediately paired
with its body and `post` (the closing `</div>`). -/
def renderChunks (pre post : Str) (L : List (Str × Str)) (rest : Str) : Str :=
  (L.map (fun pb => pb.1 ++ pre ++ pb.2 ++ post)).flatten ++ rest

/-- Structure of a tag-substitution pass: the output decomposes into
alternating source chunks and complete `pre ++ body ++ post` replacements
(so every callout div the pass opens is closed within its own replacement),
with every chunk and body a contiguous part of the input. -/
theorem subTagGo_shape (o c pre post : Str) :
    ∀ (fuel : Nat) (s : Str), ∃ L rest,
      subTagGo o c pre post fuel s = renderChunks pre post L rest ∧
      (∀ pb ∈ L, IsPart pb.1 s ∧ IsPart pb.2 s) ∧ IsPart rest s := by
  intro fuel
  induction fuel with
  | zero =>
    intro s
    exact ⟨[], s, by simp [renderChunks, subTagGo], by simp, IsPart_self s⟩
  | succ f ih =>
    intro s
    cases h1 : findIdxCIL o s with
    | none =>
      exact ⟨[], s, by simp [subTagGo, h1, renderChunks], by simp, IsPart_self s⟩
    | some i =>
      cases h2 : findIdxCIL c ((s.drop (i + o.length)).drop 1) with
      | none =>
        refine ⟨[], s, ?_, by simp, IsPart_self s⟩
        simp only [subTagGo, h1, h2, renderChunks, List.map_nil,
          List.flatten_nil, List.nil_append]
      | some j =>
        obtain ⟨L, rest, heq, hL, hrest⟩ :=
          ih ((s.drop (i + o.length)).drop (j + 1 + c.length))
        refine ⟨(s.take i, (s.drop (i + o.length)).take (j + 1)) :: L, rest,
          ?_, ?_, ?_⟩
        · simp only [subTagGo, h1, h2, heq, renderChunks, List.map_cons,
            List.flatten_cons, List.append_assoc]
        · intro pb hpb
          rcases List.mem_cons.mp hpb with h | h
          · rw [h]
            exact ⟨IsPart_take s i (IsPart_self _),
              IsPart_drop s (i + o.length)
                (IsPart_take _ (j + 1) (IsPart_self _))⟩
          · have hh := hL pb h
            exact ⟨IsPart_drop s (i + o.length)
                (IsPart_drop _ (j + 1 + c.length) hh.1),
              IsPart_drop s (i + o.length)
                (IsPart_drop _ (j + 1 + c.length) hh.2)⟩
        · exact IsPart_drop s (i + o.length)
            (IsPart_drop _ (j + 1 + c.length) hrest)

/-- C2 counterexample: on an input that itself contains the literal opening
list marker, the final output contains that marker with no `</ul>` anywhere
after it — the output string is not balanced for arbitrary inputs. -/
theorem format_unmatched_marker_cex :
    isSubL ulOpenL (format_message_content "<ul class=\"emoji-list\">".toList)
        = true ∧
    isSubL ulCloseL (format_message_content "<ul class=\"emoji-list\">".toList)
        = false := by
  constructor <;> decide

/-- C2 as amended: the markers the formatter itself emits are balanced.  For
every input, the block sequence the line machine emits pairs every
`<ul class="emoji-list">` element with a following `</ul>` element (lists
never nest), and each bracketed-tag substitution emits its opening callout
div and closing `</div>` inside one replacement, interleaved with contiguous
chunks of its input.  Marker text already present in the input is carried
through inside paragraph/list-item blocks and may remain unmatched
(`format_unmatched_marker_cex`). -/
theorem formatter_structural_balance :
    (∀ s : Str, pairedToks
        ((processLines false (splitNl (applyTagSubs (stripL s)))).filterMap
          ulTok) = true) ∧
    (∀ o c pre post t : Str, ∃ L rest,
      subTag o c pre post t = renderChunks pre post L rest ∧
      (∀ pb ∈ L, IsPart pb.1 t ∧ IsPart pb.2 t) ∧ IsPart rest t) :=
  ⟨fun _ => (processLines_balanced _).1,
   fun o c pre post t => subTagGo_shape o c pre post t.length t⟩

/-- Witness for C2's amended theorem at a concrete input with an unclosed
list at end of input. -/
theorem formatter_structural_balance_witness :
    pairedToks ((processLines false
      (splitNl (applyTagSubs (stripL "- a\nx\n- b".toList)))).filterMap ulTok)
      = true :=
  formatter_structural_balance.1 "- a\nx\n- b".toList

/-!  C3: idempotence fails.  A second application of the formatter wraps the
already-formatted single-line output in one more paragraph block. -/

theorem dropWhile_eq_self_of_head {p : Char → Bool} {l : Str} {a : Char}
    (h : l.head? = some a) (ha : p a = false) : l.dropWhile p = l := by
  cases l with
  | nil => cases h
  | cons x t =>
    have hx : x = a := by simpa using h
    rw [hx, List.dropWhile_cons, ha]
    simp

/-- `str.strip` fixes a string whose first and last characters are not
whitespace. -/
theorem stripL_eq_self {l : Str} {a b : Char}
    (h1 : l.head? = some a) (ha : pyIsSpace a = false)
    (h2 : l.getLast? = some b) (hb : pyIsSpace b = false) : stripL l = l := by
  unfold stripL
  rw [dropWhile_eq_self_of_head h1 ha,
    dropWhile_eq_self_of_head (by rw [List.head?_reverse]; exact h2) hb,
    List.reverse_reverse]

/-- Splitting a newline-free string yields that single line. -/
theorem splitNl_eq_single {l : Str} (h : '\n' ∉ l) : splitNl l = [l] := by
  induction l with
  | nil => rfl
  | cons c cs ih =>
    have hc : ¬ c = '\n' := fun he => h (he ▸ List.mem_cons_self c cs)
    have hcs : '\n' ∉ cs := fun hm => h (List.mem_cons_of_mem c hm)
    unfold splitNl
    rw [if_neg hc, ih hcs]

/-- Re-formatting an already-formatted output: a non-empty, newline-free
string that starts with `<`, ends with `>`, and is fixed by the tag
substitutions and the `<br>` cleanup is processed as one plain line and
wrapped in one more paragraph block. -/
theorem reformat_wraps (o : Str)
    (h1 : o.head? = some '<')
    (h2 : o.getLast? = some '>')
    (h3 : '\n' ∉ o)
    (h4 : applyTagSubs o = o)
    (h5 : brCollapse (pWrap o) = pWrap o) :
    format_message_content o = pWrap o := by
  obtain ⟨t, rfl⟩ : ∃ t, o = '<' :: t := by
    cases o with
    | nil => cases h1
    | cons x t =>
      have hx : x = '<' := by simpa using h1
      exact ⟨t, by rw [hx]⟩
  have h0 : ('<' :: t) ≠ ([] : Str) := by simp
  have hstrip : stripL ('<' :: t) = '<' :: t :=
    stripL_eq_self rfl (by decide) h2 (by decide)
  unfold format_message_content
  rw [if_neg h0, hstrip, h4, splitNl_eq_single h3]
  have hcol : (endsColon ('<' :: t) && decide (('<' :: t).length < 100)) = false := by
    unfold endsColon
    rw [h2]
    simp
  have hline : processLines false ['<' :: t] = [pWrap ('<' :: t)] := by
    simp only [processLines, hstrip]
    rw [if_neg h0]
    have hm1 : matchEmojiStep ('<' :: t) = none := rfl
    have hm2 : matchHeader ('<' :: t) = none := rfl
    have hm3 : firstBullet ('<' :: t) = none := rfl
    simp only [hm1, hm2, hm3, hcol, Bool.false_eq_true, if_false,
      List.nil_append]
  rw [hline]
  have hflat : ([pWrap ('<' :: t)]).flatten = pWrap ('<' :: t) := by simp
  rw [hflat, h5]
  have hpre : isPrefixL brTag (pWrap ('<' :: t)) = false := rfl
  have hsuf : isPrefixL brTag.reverse (pWrap ('<' :: t)).reverse = false := by
    unfold pWrap
    rw [List.reverse_append]
    rfl
  unfold dropBrEnds
  rw [hpre]
  simp [hsuf]

/-- C3 counterexample: `"hello"` contains no bracketed tag in any letter
case, yet applying the formatter twice is not byte-identical to applying it
once (`format(format("hello")) = "<p><p>hello</p></p>"`). -/
theorem format_not_idempotent_cex :
    (findIdxCIL wOpenT "hello".toList = none ∧
     findIdxCIL tOpenT "hello".toList = none ∧
     findIdxCIL cOpenT "hello".toList = none) ∧
    format_message_content (format_message_content "hello".toList)
      ≠ format_message_content "hello".toList := by
  exact ⟨⟨by decide, by decide, by decide⟩, by decide⟩

/-- C3 as amended: the formatter is not idempotent on bracket-tag-free
text.  Whenever the first application's output is non-empty, newline-free,
`<`-initial and `>`-final, and left unchanged by the tag substitutions and
the `<br>` cleanup — as for ordinary tag-free inputs such as `"hello"` —
the second application returns the first output wrapped in exactly one
additional paragraph block, so byte-identity fails. -/
theorem format_double_wraps_paragraph (s : Str)
    (h1 : (format_message_content s).head? = some '<')
    (h2 : (format_message_content s).getLast? = some '>')
    (h3 : '\n' ∉ format_message_content s)
    (h4 : applyTagSubs (format_message_content s) = format_message_content s)
    (h5 : brCollapse (pWrap (format_message_content s))
      = pWrap (format_message_content s)) :
    format_message_content (format_message_content s)
      = pWrap (format_message_content s) :=
  reformat_wraps _ h1 h2 h3 h4 h5

/-- Witness for C3's amended theorem at `s = "hello"`. -/
theorem format_double_wraps_paragraph_witness :
    format_message_content (format_message_content "hello".toList)
      = pWrap (format_message_content "hello".toList) :=
  format_double_wraps_paragraph "hello".toList (by decide) (by decide)
    (by decide) (by decide) (by decide)

/-!  C4: the concrete formatting example.  The claim's literal input writes
the keycap as `'1'` followed directly by U+20E3, omitting the U+FE0F
variation selector that the source pattern `[1-9]️⃣` requires; the spec's own
version of the sentence includes U+FE0F. -/

/-- The claim's literal input: keycap without the variation selector. -/
def exampleInputNoVS : Str :=
  "[WARNING]Hot![/WARNING]\n".toList ++ '1' :: keycap ::
    " Step one\n- bullet a\n- bullet b\nPlain line.".toList

/-- The spec's input: `1️⃣` with the variation selector. -/
def exampleInputVS : Str :=
  "[WARNING]Hot![/WARNING]\n".toList ++ '1' :: vs16 :: keycap ::
    " Step one\n- bullet a\n- bullet b\nPlain line.".toList

/-- Expected output for the spec's input: warning callout (wrapped in the
paragraph its line becomes), emoji-step block, one list with two arrowed
items, final paragraph — in that order. -/
def exampleOutputVS : Str :=
  "<p><div class=\"warning-box\">⚠️ <strong>Warning:</strong>Hot!</div></p>".toList ++
  "<div class=\"emoji-step\">".toList ++ '1' :: vs16 :: keycap :: " Step one</div>".toList ++
  "<ul class=\"emoji-list\"><li>▶️ bullet a</li><li>▶️ bullet b</li></ul>".toList ++
  "<p>Plain line.</p>".toList

/-- Output for the claim's literal input: the step line fails the
emoji-step pattern and is emitted as a plain paragraph. -/
def exampleOutputNoVS : Str :=
  "<p><div class=\"warning-box\">⚠️ <strong>Warning:</strong>Hot!</div></p>".toList ++
  "<p>".toList ++ '1' :: keycap :: " Step one</p>".toList ++
  "<ul class=\"emoji-list\"><li>▶️ bullet a</li><li>▶️ bullet b</li></ul>".toList ++
  "<p>Plain line.</p>".toList

/-- C4 counterexample: on the claim's literal input (keycap without U+FE0F)
the formatter emits no emoji-step block at all — `1⃣ Step one` becomes a
plain paragraph — so the claimed block sequence does not appear. -/
theorem format_example_no_step_cex :
    format_message_content exampleInputNoVS = exampleOutputNoVS ∧
    isSubL "<div class=\"emoji-step\">".toList
      (format_message_content exampleInputNoVS) = false := by
  constructor <;> decide

/-- C4 as amended: with the keycap written `1️⃣` (digit, U+FE0F, U+20E3, as
in the spec sentence and the source pattern), the output is exactly the
warning callout block (inside its paragraph), the emoji-step block for
"Step one", one list of two items each prefixed with `▶️ `, and the final
paragraph, in that order. -/
theorem format_example_blocks :
    format_message_content exampleInputVS = exampleOutputVS := by decide

end AgentRepair
